import Mathlib

/-
  Verification of the pump-trader trade engine (src/index.js).

  The JavaScript code works on BigInt values read from unsigned 64-bit
  on-chain fields; all arithmetic is arbitrary-precision integer arithmetic
  with truncating division, so the faithful embedding uses Nat with Nat
  division.  Stateful / asynchronous parts (account loads, transaction
  status queries, the log-stream handler) are embedded by passing the
  fetched values or response sequences explicitly.
-/

/-- Bonding-curve account state as decoded by loadBonding (src/index.js):
five unsigned 64-bit reserve fields followed by the completion flag. -/
structure BondingState where
  virtualTokenReserves : Nat
  virtualSolReserves : Nat
  realTokenReserves : Nat
  realSolReserves : Nat
  tokenTotalSupply : Nat
  complete : Bool
deriving Repr, DecidableEq

/-- calcBuy (src/index.js lines 305-309): token output for a base-currency
input, constant-product formula with truncating division. -/
def calcBuy (solIn : Nat) (state : BondingState) : Nat :=
  let newVirtualSol := state.virtualSolReserves + solIn
  let newVirtualToken := state.virtualSolReserves * state.virtualTokenReserves / newVirtualSol
  state.virtualTokenReserves - newVirtualToken

/-- calcSell (src/index.js lines 311-315): base-currency output for a token
input, mirror of calcBuy. -/
def calcSell (tokenIn : Nat) (state : BondingState) : Nat :=
  let newVirtualToken := state.virtualTokenReserves + tokenIn
  let newVirtualSol := state.virtualSolReserves * state.virtualTokenReserves / newVirtualToken
  state.virtualSolReserves - newVirtualSol

/-- AMM pool reserves as returned by getAmmPoolReserves (src/index.js). -/
structure PoolReserves where
  baseAmount : Nat
  quoteAmount : Nat
  baseDecimals : Nat
  quoteDecimals : Nat
deriving Repr, DecidableEq

/-- AMM_FEE_BPS constant (src/index.js line 57). -/
def AMM_FEE_BPS : Nat := 100

/-- BPS_DENOMINATOR constant (src/index.js line 58). -/
def BPS_DENOMINATOR : Nat := 10000

/-- calculateAmmBuyOutput (src/index.js lines 317-322): deduct the fee from
the quote input, then apply the constant-product formula. -/
def calculateAmmBuyOutput (quoteIn : Nat) (reserves : PoolReserves) : Nat :=
  let quoteInAfterFee := quoteIn * (BPS_DENOMINATOR - AMM_FEE_BPS) / BPS_DENOMINATOR
  let numerator := reserves.baseAmount * quoteInAfterFee
  let denominator := reserves.quoteAmount + quoteInAfterFee
  numerator / denominator

/-- calculateAmmSellOutput (src/index.js lines 324-329). -/
def calculateAmmSellOutput (baseIn : Nat) (reserves : PoolReserves) : Nat :=
  let baseInAfterFee := baseIn * (BPS_DENOMINATOR - AMM_FEE_BPS) / BPS_DENOMINATOR
  let numerator := reserves.quoteAmount * baseInAfterFee
  let denominator := reserves.baseAmount + baseInAfterFee
  numerator / denominator

/-- The reserve update induced by a buy of solIn: the new virtual reserves are
exactly the intermediate values newVirtualSol and newVirtualToken computed
inside calcBuy. -/
def buyUpdate (solIn : Nat) (state : BondingState) : BondingState :=
  { state with
    virtualSolReserves := state.virtualSolReserves + solIn
    virtualTokenReserves :=
      state.virtualSolReserves * state.virtualTokenReserves / (state.virtualSolReserves + solIn) }

/-- Buy of solIn, then sell of the resulting token output against the updated
reserves. -/
def buyRoundTrip (solIn : Nat) (state : BondingState) : Nat :=
  calcSell (calcBuy solIn state) (buyUpdate solIn state)

/-- A bonding state carrying only the two virtual reserves (the remaining
fields do not enter the pricing formulas). -/
def mkCurveState (virtualToken virtualSol : Nat) : BondingState :=
  { virtualTokenReserves := virtualToken
    virtualSolReserves := virtualSol
    realTokenReserves := 0
    realSolReserves := 0
    tokenTotalSupply := 0
    complete := false }

/-- C7: calcBuy computes Vt − floor(Vb·Vt/(Vb+x)) in exact integer
arithmetic, and at state (Vt=1_000_000_000, Vb=30_000_000_000) a buy of
100_000_000 yields exactly 1_000_000_000 − floor(30_000_000_000·1_000_000_000/30_100_000_000). -/
theorem calcBuy_formula_and_example :
    (∀ (s : BondingState) (x : Nat),
        calcBuy x s =
          s.virtualTokenReserves -
            s.virtualSolReserves * s.virtualTokenReserves / (s.virtualSolReserves + x)) ∧
    calcBuy 100000000 (mkCurveState 1000000000 30000000000) =
      1000000000 - 30000000000 * 1000000000 / 30100000000 := by
  constructor
  · intro s x
    rfl
  · rfl

/-- C8: calculateAmmBuyOutput deducts the 100-of-10000 basis-point fee first
(q' = floor(q·9900/10000)) and then applies floor(base·q'/(quote+q')); at
reserves (base=500_000, quote=10_000_000) a quote input of 1_000_000 pays a
fee down to 990_000 and yields exactly floor(500_000·990_000/10_990_000). -/
theorem calculateAmmBuyOutput_formula_and_example :
    (∀ (q : Nat) (r : PoolReserves),
        calculateAmmBuyOutput q r =
          r.baseAmount * (q * 9900 / 10000) /
            (r.quoteAmount + q * 9900 / 10000)) ∧
    1000000 * 9900 / 10000 = 990000 ∧
    calculateAmmBuyOutput 1000000 ⟨500000, 10000000, 6, 9⟩ =
      500000 * 990000 / 10990000 := by
  refine ⟨fun q r => rfl, rfl, rfl⟩

/-- C1 counterexample: at reserves (Vt=3, Vb=10) a buy of 4 yields 1 token,
whose sale against the updated reserves returns 5 > 4 base units, refuting
"calcSell of the token output returns at most x". -/
theorem buyRoundTrip_can_exceed_input :
    ¬ buyRoundTrip 4 (mkCurveState 3 10) ≤ 4 := by decide

/-- C1 amended: for positive virtual reserves and positive input x, the buy
round trip returns at least x, with equality exactly when the buy-side
division Vb·Vt/(Vb+x) leaves no remainder (no truncation). -/
theorem buyRoundTrip_ge_input (s : BondingState) (x : Nat)
    (hVb : 0 < s.virtualSolReserves) (hVt : 0 < s.virtualTokenReserves) (hx : 0 < x) :
    x ≤ buyRoundTrip x s ∧
    (buyRoundTrip x s = x ↔
      s.virtualSolReserves * s.virtualTokenReserves % (s.virtualSolReserves + x) = 0) := by
  have hq_le : s.virtualSolReserves * s.virtualTokenReserves / (s.virtualSolReserves + x) ≤
      s.virtualTokenReserves := by
    calc s.virtualSolReserves * s.virtualTokenReserves / (s.virtualSolReserves + x)
        ≤ (s.virtualSolReserves + x) * s.virtualTokenReserves / (s.virtualSolReserves + x) :=
          Nat.div_le_div_right
            (Nat.mul_le_mul_right s.virtualTokenReserves (Nat.le_add_right _ x))
      _ = s.virtualTokenReserves := Nat.mul_div_cancel_left _ (by omega)
  have hrt : buyRoundTrip x s =
      (s.virtualSolReserves + x) -
        (s.virtualSolReserves + x) *
            (s.virtualSolReserves * s.virtualTokenReserves / (s.virtualSolReserves + x)) /
          (s.virtualSolReserves * s.virtualTokenReserves / (s.virtualSolReserves + x) +
            (s.virtualTokenReserves -
              s.virtualSolReserves * s.virtualTokenReserves / (s.virtualSolReserves + x))) := rfl
  rw [Nat.add_sub_cancel' hq_le] at hrt
  have hdm := Nat.div_add_mod (s.virtualSolReserves * s.virtualTokenReserves)
    (s.virtualSolReserves + x)
  have hN_le : (s.virtualSolReserves + x) *
      (s.virtualSolReserves * s.virtualTokenReserves / (s.virtualSolReserves + x)) /
        s.virtualTokenReserves ≤ s.virtualSolReserves := by
    refine le_trans (Nat.div_le_div_right (Nat.le.intro hdm)) (le_of_eq ?_)
    exact Nat.mul_div_cancel s.virtualSolReserves hVt
  have hiff : s.virtualSolReserves ≤
      (s.virtualSolReserves + x) *
        (s.virtualSolReserves * s.virtualTokenReserves / (s.virtualSolReserves + x)) /
          s.virtualTokenReserves ↔
      s.virtualSolReserves * s.virtualTokenReserves ≤
        (s.virtualSolReserves + x) *
          (s.virtualSolReserves * s.virtualTokenReserves / (s.virtualSolReserves + x)) :=
    Nat.le_div_iff_mul_le hVt
  rw [hrt]
  omega

/-- C1 witness: at reserves (Vt=3, Vb=10) and x=5 the division is exact, the
round trip returns exactly 5, and the amended theorem applies. -/
theorem buyRoundTrip_ge_input_witness :
    5 ≤ buyRoundTrip 5 (mkCurveState 3 10) ∧
    (buyRoundTrip 5 (mkCurveState 3 10) = 5 ↔
      (mkCurveState 3 10).virtualSolReserves * (mkCurveState 3 10).virtualTokenReserves %
        ((mkCurveState 3 10).virtualSolReserves + 5) = 0) :=
  buyRoundTrip_ge_input (mkCurveState 3 10) 5 (by decide) (by decide) (by decide)

/-- C2 counterexample: at reserves (Vt=1, Vb=1) a buy of 1 returns 1 = Vt,
refuting the strict inequality calcBuy(x) < Vt. -/
theorem calcBuy_can_reach_reserves :
    ¬ calcBuy 1 (mkCurveState 1 1) < (mkCurveState 1 1).virtualTokenReserves := by
  decide

/-- C2 amended: for every state and x > 0, calcBuy(x) ≤ Vt, and the strict
inequality calcBuy(x) < Vt holds whenever Vb + x ≤ Vb·Vt (i.e. whenever the
truncated quotient Vb·Vt/(Vb+x) is nonzero). -/
theorem calcBuy_le_and_lt_reserves (s : BondingState) (x : Nat) (hx : 0 < x) :
    calcBuy x s ≤ s.virtualTokenReserves ∧
    (s.virtualSolReserves + x ≤ s.virtualSolReserves * s.virtualTokenReserves →
      calcBuy x s < s.virtualTokenReserves) := by
  constructor
  · exact Nat.sub_le _ _
  · intro h
    have hq : 1 ≤ s.virtualSolReserves * s.virtualTokenReserves / (s.virtualSolReserves + x) :=
      (Nat.one_le_div_iff (by omega)).mpr h
    have hVt : 0 < s.virtualTokenReserves := by
      rcases Nat.eq_zero_or_pos s.virtualTokenReserves with h0 | h0
      · rw [h0, Nat.mul_zero] at h
        omega
      · exact h0
    show s.virtualTokenReserves -
        s.virtualSolReserves * s.virtualTokenReserves / (s.virtualSolReserves + x) <
      s.virtualTokenReserves
    omega

/-- C2 witness: at the realistic reserves (Vt=1_000_000_000, Vb=30_000_000_000)
and x=100_000_000 the buy output is strictly below the virtual token reserves. -/
theorem calcBuy_lt_reserves_witness :
    calcBuy 100000000 (mkCurveState 1000000000 30000000000) <
      (mkCurveState 1000000000 30000000000).virtualTokenReserves :=
  (calcBuy_le_and_lt_reserves (mkCurveState 1000000000 30000000000) 100000000
    (by decide)).2 (by decide)

/-- splitByMax recursion (src/index.js lines 560-570), with the remaining
amount doubling as fuel: when maxAmt is positive each loop iteration removes
at least one unit, so total iterations never exceed the starting remainder. -/
def splitByMaxGo (maxAmt : Nat) : Nat → Nat → List Nat
  | 0, _ => []
  | _ + 1, 0 => []
  | fuel + 1, r + 1 =>
    let chunk := if r + 1 > maxAmt then maxAmt else r + 1
    chunk :: splitByMaxGo maxAmt fuel (r + 1 - chunk)

/-- splitByMax (src/index.js lines 560-570): cut min(remaining, maxAmt)
chunks until the remainder reaches zero. -/
def splitByMax (total maxAmt : Nat) : List Nat :=
  splitByMaxGo maxAmt total total

/-- A zero remainder gives no further chunks, for any fuel. -/
theorem splitByMaxGo_zero (maxAmt fuel : Nat) : splitByMaxGo maxAmt fuel 0 = [] := by
  cases fuel <;> rfl

/-- Invariant of the splitByMax loop, by induction on the fuel. -/
theorem splitByMaxGo_spec (maxAmt : Nat) (hm : 0 < maxAmt) :
    ∀ fuel r, r ≤ fuel →
      (splitByMaxGo maxAmt fuel r).sum = r ∧
      (∀ c ∈ splitByMaxGo maxAmt fuel r, c ≤ maxAmt) ∧
      (splitByMaxGo maxAmt fuel r).length = (r + maxAmt - 1) / maxAmt := by
  intro fuel
  induction fuel with
  | zero =>
    intro r hr
    have : r = 0 := by omega
    subst this
    refine ⟨rfl, by simp [splitByMaxGo], ?_⟩
    simp [splitByMaxGo, Nat.div_eq_of_lt (by omega : maxAmt - 1 < maxAmt)]
  | succ fuel ih =>
    intro r hr
    cases r with
    | zero =>
      refine ⟨rfl, by simp [splitByMaxGo], ?_⟩
      simp [splitByMaxGo, Nat.div_eq_of_lt (by omega : maxAmt - 1 < maxAmt)]
    | succ s =>
      by_cases hcase : s + 1 > maxAmt
      · have hstep : splitByMaxGo maxAmt (fuel + 1) (s + 1) =
            maxAmt :: splitByMaxGo maxAmt fuel (s + 1 - maxAmt) := by
          simp [splitByMaxGo, hcase]
        obtain ⟨ihsum, ihmem, ihlen⟩ := ih (s + 1 - maxAmt) (by omega)
        refine ⟨?_, ?_, ?_⟩
        · rw [hstep]
          simp [List.sum_cons, ihsum]
          omega
        · rw [hstep]
          intro c hc
          rcases List.mem_cons.mp hc with h | h
          · omega
          · exact ihmem c h
        · rw [hstep, List.length_cons, ihlen]
          have heq : s + 1 + maxAmt - 1 = (s + 1 - maxAmt + maxAmt - 1) + maxAmt := by omega
          rw [heq, Nat.add_div_right _ hm]
      · have hstep : splitByMaxGo maxAmt (fuel + 1) (s + 1) =
            (s + 1) :: splitByMaxGo maxAmt fuel 0 := by
          simp [splitByMaxGo, hcase]
        rw [hstep, splitByMaxGo_zero]
        refine ⟨by simp, ?_, ?_⟩
        · intro c hc
          simp at hc
          omega
        · simp
          rw [Nat.add_div_right _ hm, Nat.div_eq_of_lt (by omega : s < maxAmt)]

/-- C6: for positive maxAmt, splitByMax returns chunks summing exactly to the
total, each at most maxAmt, with ceil(total/maxAmt) chunks. -/
theorem splitByMax_spec (total maxAmt : Nat) (hm : 0 < maxAmt) :
    (splitByMax total maxAmt).sum = total ∧
    (∀ c ∈ splitByMax total maxAmt, c ≤ maxAmt) ∧
    (splitByMax total maxAmt).length = (total + maxAmt - 1) / maxAmt :=
  splitByMaxGo_spec maxAmt hm total total le_rfl

/-- C6 witness: splitByMax 10 3 = [3, 3, 3, 1] sums to 10 in ceil(10/3) = 4
chunks, the first of which is bounded by 3. -/
theorem splitByMax_spec_witness :
    (splitByMax 10 3).sum = 10 ∧
    (splitByMax 10 3).length = (10 + 3 - 1) / 3 ∧
    (splitByMax 10 3).getD 0 0 ≤ 3 :=
  ⟨(splitByMax_spec 10 3 (by decide)).1,
   (splitByMax_spec 10 3 (by decide)).2.2,
   (splitByMax_spec 10 3 (by decide)).2.1 _ (by decide)⟩

/-- splitIntoN loop body (src/index.js lines 572-583), counting down the
remaining iterations: with more than one iteration left emit the fixed part,
on the last iteration emit whatever remains. -/
def splitIntoNGo (part : Nat) : Nat → Nat → List Nat
  | _, 0 => []
  | remaining, 1 => [remaining]
  | remaining, k + 2 => part :: splitIntoNGo part (remaining - part) (k + 1)

/-- splitIntoN (src/index.js lines 572-583): n chunks, the first n−1 equal to
floor(total/n), the last absorbing the remainder. -/
def splitIntoN (total n : Nat) : List Nat :=
  splitIntoNGo (total / n) total n

/-- Closed form of the splitIntoN loop. -/
theorem splitIntoNGo_closed (part : Nat) :
    ∀ k remaining, splitIntoNGo part remaining (k + 1) =
      List.replicate k part ++ [remaining - k * part] := by
  intro k
  induction k with
  | zero => intro remaining; simp [splitIntoNGo]
  | succ k ih =>
    intro remaining
    show part :: splitIntoNGo part (remaining - part) (k + 1) = _
    rw [ih]
    simp [List.replicate_succ]
    have hmul : (k + 1) * part = k * part + part := by ring
    omega

/-- Closed form of splitIntoN for a positive chunk count. -/
theorem splitIntoN_closed (total n : Nat) (hn : 0 < n) :
    splitIntoN total n =
      List.replicate (n - 1) (total / n) ++ [total / n + total % n] := by
  obtain ⟨k, rfl⟩ : ∃ k, n = k + 1 := ⟨n - 1, by omega⟩
  rw [splitIntoN, splitIntoNGo_closed]
  have harg : total - k * (total / (k + 1)) = total / (k + 1) + total % (k + 1) := by
    have hdm := Nat.div_add_mod total (k + 1)
    generalize hq : total / (k + 1) = q at hdm ⊢
    generalize hm2 : total % (k + 1) = m at hdm ⊢
    have hmul : (k + 1) * q = k * q + q := by ring
    omega
  rw [harg]
  simp

/-- splitIntoN properties used by the sell planner: exact sum, exact count,
and the replicate-plus-remainder shape. -/
theorem splitIntoN_spec (total n : Nat) (hn : 0 < n) :
    (splitIntoN total n).sum = total ∧
    (splitIntoN total n).length = n ∧
    splitIntoN total n =
      List.replicate (n - 1) (total / n) ++ [total / n + total % n] := by
  obtain ⟨k, rfl⟩ : ∃ k, n = k + 1 := ⟨n - 1, by omega⟩
  have hc := splitIntoN_closed total (k + 1) hn
  refine ⟨?_, ?_, hc⟩
  · rw [hc]
    simp [List.sum_replicate, smul_eq_mul]
    have hdm := Nat.div_add_mod total (k + 1)
    generalize hq : total / (k + 1) = q at hdm ⊢
    generalize hm2 : total % (k + 1) = m at hdm ⊢
    have hmul : (k + 1) * q = k * q + q := by ring
    omega
  · rw [hc]
    simp

/-- Errors thrown by the curve-phase trade builders before any sub-order is
planned or submitted; curveAlreadyComplete is the
"Bonding curve already completed" throw in buy and sell. -/
inductive TradeError where
  | curveAlreadyComplete
deriving Repr, DecidableEq

/-- Planning phase of buy (src/index.js lines 611-619): after loading the
bonding state, reject a completed curve, otherwise chunk the base-currency
total by the per-transaction ceiling.  An error here is a throw: no
transaction is built or sent and no outcome lists are constructed. -/
def buyPlan (state : BondingState) (totalSolIn maxSolPerTx : Nat) :
    Except TradeError (List Nat) :=
  if state.complete then Except.error TradeError.curveAlreadyComplete
  else Except.ok (splitByMax totalSolIn maxSolPerTx)

/-- Planning phase of sell (src/index.js lines 727-736): after loading the
bonding state, reject a completed curve; otherwise quote the full token
amount once, keep a single chunk when the quoted proceeds fit the ceiling,
and otherwise split the token input into ceil(totalSolOut/maxSolPerTx)
parts. -/
def sellPlan (state : BondingState) (totalTokenIn maxSolPerTx : Nat) :
    Except TradeError (List Nat) :=
  if state.complete then Except.error TradeError.curveAlreadyComplete
  else
    let totalSolOut := calcSell totalTokenIn state
    if totalSolOut ≤ maxSolPerTx then Except.ok [totalTokenIn]
    else Except.ok (splitIntoN totalTokenIn ((totalSolOut + maxSolPerTx - 1) / maxSolPerTx))

/-- C4: when the curve completion flag is set, both curve-phase trade
builders fail with the CurveAlreadyComplete error instead of producing an
order plan, so no sub-order is built and no transaction is sent. -/
theorem curveComplete_fails_fast (state : BondingState)
    (totalSolIn totalTokenIn maxSolPerTx : Nat) (hc : state.complete = true) :
    buyPlan state totalSolIn maxSolPerTx = Except.error TradeError.curveAlreadyComplete ∧
    sellPlan state totalTokenIn maxSolPerTx = Except.error TradeError.curveAlreadyComplete := by
  simp [buyPlan, sellPlan, hc]

/-- C4 witness: a concrete completed state is rejected by both builders. -/
theorem curveComplete_fails_fast_witness :
    buyPlan { mkCurveState 1000 30000 with complete := true } 100 10 =
      Except.error TradeError.curveAlreadyComplete ∧
    sellPlan { mkCurveState 1000 30000 with complete := true } 100 10 =
      Except.error TradeError.curveAlreadyComplete :=
  curveComplete_fails_fast { mkCurveState 1000 30000 with complete := true } 100 100 10 rfl

/-- C5: on an incomplete curve with a positive ceiling, the sell planner
quotes the full token amount once; when the quoted proceeds fit the ceiling
the plan is the single chunk [T]; otherwise, with n = ceil(proceeds/ceiling),
the plan is splitIntoN T n: exactly n chunks, the first n−1 equal to
floor(T/n), the final chunk floor(T/n) + T mod n absorbing the remainder,
and the chunks sum to exactly T. -/
theorem sellPlan_chunking (state : BondingState) (totalTokenIn maxSolPerTx : Nat)
    (hc : state.complete = false) (hm : 0 < maxSolPerTx) :
    (calcSell totalTokenIn state ≤ maxSolPerTx →
      sellPlan state totalTokenIn maxSolPerTx = Except.ok [totalTokenIn]) ∧
    (maxSolPerTx < calcSell totalTokenIn state →
      sellPlan state totalTokenIn maxSolPerTx =
        Except.ok (splitIntoN totalTokenIn
          ((calcSell totalTokenIn state + maxSolPerTx - 1) / maxSolPerTx)) ∧
      (splitIntoN totalTokenIn
          ((calcSell totalTokenIn state + maxSolPerTx - 1) / maxSolPerTx)).sum =
        totalTokenIn ∧
      (splitIntoN totalTokenIn
          ((calcSell totalTokenIn state + maxSolPerTx - 1) / maxSolPerTx)).length =
        (calcSell totalTokenIn state + maxSolPerTx - 1) / maxSolPerTx ∧
      splitIntoN totalTokenIn
          ((calcSell totalTokenIn state + maxSolPerTx - 1) / maxSolPerTx) =
        List.replicate ((calcSell totalTokenIn state + maxSolPerTx - 1) / maxSolPerTx - 1)
            (totalTokenIn / ((calcSell totalTokenIn state + maxSolPerTx - 1) / maxSolPerTx)) ++
          [totalTokenIn / ((calcSell totalTokenIn state + maxSolPerTx - 1) / maxSolPerTx) +
            totalTokenIn % ((calcSell totalTokenIn state + maxSolPerTx - 1) / maxSolPerTx)]) := by
  constructor
  · intro h
    simp [sellPlan, hc, h]
  · intro h
    have hn : 0 < (calcSell totalTokenIn state + maxSolPerTx - 1) / maxSolPerTx :=
      (Nat.one_le_div_iff hm).mpr (by omega)
    obtain ⟨hsum, hlen, hshape⟩ :=
      splitIntoN_spec totalTokenIn ((calcSell totalTokenIn state + maxSolPerTx - 1) / maxSolPerTx) hn
    refine ⟨?_, hsum, hlen, hshape⟩
    simp [sellPlan, hc]
    omega

/-- C5 witness: at reserves (Vt=1000, Vb=1000) the quoted proceeds of a
100-token sell are 91, so with a ceiling of 1 the planner splits into 91
chunks of 1 with the final chunk absorbing the remainder. -/
theorem sellPlan_chunking_witness :
    sellPlan (mkCurveState 1000 1000) 100 1 =
      Except.ok (splitIntoN 100 ((calcSell 100 (mkCurveState 1000 1000) + 1 - 1) / 1)) ∧
    (splitIntoN 100 ((calcSell 100 (mkCurveState 1000 1000) + 1 - 1) / 1)).sum = 100 ∧
    (splitIntoN 100 ((calcSell 100 (mkCurveState 1000 1000) + 1 - 1) / 1)).length =
      (calcSell 100 (mkCurveState 1000 1000) + 1 - 1) / 1 ∧
    splitIntoN 100 ((calcSell 100 (mkCurveState 1000 1000) + 1 - 1) / 1) =
      List.replicate ((calcSell 100 (mkCurveState 1000 1000) + 1 - 1) / 1 - 1)
          (100 / ((calcSell 100 (mkCurveState 1000 1000) + 1 - 1) / 1)) ++
        [100 / ((calcSell 100 (mkCurveState 1000 1000) + 1 - 1) / 1) +
          100 % ((calcSell 100 (mkCurveState 1000 1000) + 1 - 1) / 1)] :=
  (sellPlan_chunking (mkCurveState 1000 1000) 100 1 rfl (by decide)).2 (by decide)

/-- DISCRIMINATORS.TRADE_EVENT (src/index.js line 54): the 8-byte tag of a
trade-event log payload. -/
def TRADE_EVENT_DISCRIMINATOR : List Nat := [189, 219, 127, 211, 78, 230, 97, 238]

/-- Little-endian unsigned 64-bit read at a byte offset
(Buffer.readBigUInt64LE). -/
def readU64LE (b : List Nat) (off : Nat) : Nat :=
  b.getD off 0 + 256 * (b.getD (off + 1) 0 + 256 * (b.getD (off + 2) 0 + 256 *
    (b.getD (off + 3) 0 + 256 * (b.getD (off + 4) 0 + 256 * (b.getD (off + 5) 0 + 256 *
      (b.getD (off + 6) 0 + 256 * b.getD (off + 7) 0))))))

/-- Little-endian signed 64-bit read (Buffer.readBigInt64LE), two's
complement. -/
def readI64LE (b : List Nat) (off : Nat) : Int :=
  let v := readU64LE b off
  if v < 2 ^ 63 then (v : Int) else (v : Int) - 2 ^ 64

/-- Decoded trade event delivered to the listenTrades callback; the mint and
user are kept as their 32 raw bytes. -/
structure TradeEvent where
  mint : List Nat
  solAmount : Nat
  tokenAmount : Nat
  isBuy : Bool
  user : List Nat
  timestamp : Int
  signature : String
deriving Repr, DecidableEq

/-- One line of a log message: either a labeled data line carrying its
base64-decoded payload bytes (base64 decoding is a bijection on byte strings
and is abstracted here), or any other line, which the handler skips. -/
inductive LogLine where
  | programData (bytes : List Nat)
  | other
deriving Repr, DecidableEq

/-- Field decoding of a trade-event payload (src/index.js lines 1277-1300):
32-byte mint at offset 8, two unsigned 64-bit amounts, the buy flag byte, the
32-byte trader and the signed 64-bit timestamp. -/
def decodeTradeEvent (b : List Nat) (signature : String) : TradeEvent :=
  { mint := (b.drop 8).take 32
    solAmount := readU64LE b 40
    tokenAmount := readU64LE b 48
    isBuy := b.getD 56 0 == 1
    user := (b.drop 57).take 32
    timestamp := readI64LE b 89
    signature := signature }

/-- The listenTrades log handler (src/index.js lines 1269-1302) applied to
the lines of one log message; the returned list is the sequence of callback
invocations.  Lines that are not data lines, or whose tag is not the
trade-event discriminator, are skipped with continue; a configured mint
filter that does not match executes a return statement, which ends the
handler for the whole log message. -/
def handleLogLines (mintFilter : Option (List Nat)) (signature : String) :
    List LogLine → List TradeEvent
  | [] => []
  | LogLine.other :: rest => handleLogLines mintFilter signature rest
  | LogLine.programData b :: rest =>
    if b.take 8 ≠ TRADE_EVENT_DISCRIMINATOR then
      handleLogLines mintFilter signature rest
    else
      match mintFilter with
      | some m =>
        if (b.drop 8).take 32 ≠ m then []
        else decodeTradeEvent b signature :: handleLogLines mintFilter signature rest
      | none => decodeTradeEvent b signature :: handleLogLines mintFilter signature rest

/-- A well-formed 97-byte trade-event payload with a given 32-byte mint and
zeroed remaining fields. -/
def tradePayload (mint : List Nat) : List Nat :=
  TRADE_EVENT_DISCRIMINATOR ++ mint ++ List.replicate 57 0

/-- C3 counterexample: with filter mint 2…2, a log message holding a
well-formed non-matching line (mint 1…1) followed by a well-formed matching
line (mint 2…2) produces no callback at all — the matching line after the
non-matching one is never delivered, refuting the claim. -/
theorem listenTrades_filter_aborts_counterexample :
    (tradePayload (List.replicate 32 2)).take 8 = TRADE_EVENT_DISCRIMINATOR ∧
    ((tradePayload (List.replicate 32 2)).drop 8).take 32 = List.replicate 32 2 ∧
    handleLogLines (some (List.replicate 32 2)) "sig"
      [LogLine.programData (tradePayload (List.replicate 32 1)),
       LogLine.programData (tradePayload (List.replicate 32 2))] = [] := by
  decide

/-- C3 amended: with a configured mint filter, non-data lines and lines with
a foreign tag are skipped; a well-formed trade line with a non-matching mint
is dropped without invoking the callback and additionally aborts the rest of
the log message; a matching trade line invokes the callback and processing
continues — so the callback fires exactly for the matching lines preceding
the first non-matching well-formed trade line. -/
theorem listenTrades_filter_behavior (m b : List Nat) (sig : String) (rest : List LogLine) :
    (handleLogLines (some m) sig (LogLine.other :: rest) =
      handleLogLines (some m) sig rest) ∧
    (b.take 8 ≠ TRADE_EVENT_DISCRIMINATOR →
      handleLogLines (some m) sig (LogLine.programData b :: rest) =
        handleLogLines (some m) sig rest) ∧
    (b.take 8 = TRADE_EVENT_DISCRIMINATOR → (b.drop 8).take 32 ≠ m →
      handleLogLines (some m) sig (LogLine.programData b :: rest) = []) ∧
    (b.take 8 = TRADE_EVENT_DISCRIMINATOR → (b.drop 8).take 32 = m →
      handleLogLines (some m) sig (LogLine.programData b :: rest) =
        decodeTradeEvent b sig :: handleLogLines (some m) sig rest) := by
  refine ⟨rfl, ?_, ?_, ?_⟩
  · intro h1
    simp [handleLogLines, h1]
  · intro h1 h2
    simp [handleLogLines, h1, h2]
  · intro h1 h2
    simp [handleLogLines, h1, h2]

/-- C3 witness: a lone non-matching well-formed line yields no callback; a
lone matching line yields exactly its decoded event. -/
theorem listenTrades_filter_behavior_witness :
    handleLogLines (some (List.replicate 32 2)) "sig2"
        [LogLine.programData (tradePayload (List.replicate 32 1))] = [] ∧
    handleLogLines (some (List.replicate 32 2)) "sig2"
        [LogLine.programData (tradePayload (List.replicate 32 2))] =
      [decodeTradeEvent (tradePayload (List.replicate 32 2)) "sig2"] :=
  ⟨(listenTrades_filter_behavior (List.replicate 32 2)
      (tradePayload (List.replicate 32 1)) "sig2" []).2.2.1 (by decide) (by decide),
   (listenTrades_filter_behavior (List.replicate 32 2)
      (tradePayload (List.replicate 32 2)) "sig2" []).2.2.2 (by decide) (by decide)⟩

/-- One attempt's observation inside confirmTransactionWithPolling
(src/index.js lines 1230-1256): the status query found the transaction
(carrying meta.err when non-null), found nothing (in which case the finalized
block height was then fetched), or the query itself threw a transient
error. -/
inductive PollResponse where
  | found (err : Option String)
  | notFound (currentBlockHeight : Nat)
  | queryError (message : String)
deriving Repr, DecidableEq

/-- Outcome of confirmTransactionWithPolling: the returned signature, one of
the two immediately propagated errors, or the timeout error after all
attempts, which also carries the signature. -/
inductive ConfirmResult where
  | confirmed (signature : String)
  | rejected (err : String)
  | expired
  | timedOut (signature : String)
deriving Repr, DecidableEq

/-- The body of one polling attempt: some result ends the loop immediately
(rejection, confirmation, or expiry when the finalized height exceeds the
ceiling), none means the attempt is consumed and polling continues. -/
def confirmStep (lastValidBlockHeight : Nat) (signature : String) :
    PollResponse → Option ConfirmResult
  | PollResponse.found (some e) => some (ConfirmResult.rejected e)
  | PollResponse.found none => some (ConfirmResult.confirmed signature)
  | PollResponse.notFound h =>
    if lastValidBlockHeight < h then some ConfirmResult.expired else none
  | PollResponse.queryError _ => none

/-- The attempt loop of confirmTransactionWithPolling, indexed by the current
attempt number and the remaining attempts; responses maps each attempt number
to that attempt's observation. -/
def confirmLoop (signature : String) (lastValidBlockHeight : Nat)
    (responses : Nat → PollResponse) : Nat → Nat → ConfirmResult
  | _, 0 => ConfirmResult.timedOut signature
  | attempt, rem + 1 =>
    match confirmStep lastValidBlockHeight signature (responses attempt) with
    | some r => r
    | none => confirmLoop signature lastValidBlockHeight responses (attempt + 1) rem

/-- confirmTransactionWithPolling (src/index.js lines 1220-1262): poll from
attempt 1 up to maxAttempts. -/
def confirmTransactionWithPolling (signature : String) (lastValidBlockHeight : Nat)
    (responses : Nat → PollResponse) (maxAttempts : Nat) : ConfirmResult :=
  confirmLoop signature lastValidBlockHeight responses 1 maxAttempts

/-- If every attempt before a decisive one is indecisive, the loop returns
that decisive result, regardless of any later responses. -/
theorem confirmLoop_decisive (sig : String) (lv : Nat) (responses : Nat → PollResponse) :
    ∀ k start rem r, k < rem →
      (∀ j, j < k → confirmStep lv sig (responses (start + j)) = none) →
      confirmStep lv sig (responses (start + k)) = some r →
      confirmLoop sig lv responses start rem = r := by
  intro k
  induction k with
  | zero =>
    intro start rem r hk hprev hstep
    obtain ⟨rem2, rfl⟩ : ∃ rem2, rem = rem2 + 1 := ⟨rem - 1, by omega⟩
    rw [Nat.add_zero] at hstep
    simp [confirmLoop, hstep]
  | succ k ih =>
    intro start rem r hk hprev hstep
    obtain ⟨rem2, rfl⟩ : ∃ rem2, rem = rem2 + 1 := ⟨rem - 1, by omega⟩
    have h0 : confirmStep lv sig (responses start) = none := by
      have := hprev 0 (by omega)
      rwa [Nat.add_zero] at this
    have hrec : confirmLoop sig lv responses (start + 1) rem2 = r := by
      refine ih (start + 1) rem2 r (by omega) ?_ ?_
      · intro j hj
        have := hprev (j + 1) (by omega)
        rwa [show start + (j + 1) = start + 1 + j by omega] at this
      · rwa [show start + (k + 1) = start + 1 + k by omega] at hstep
    simp [confirmLoop, h0, hrec]

/-- If every attempt is indecisive the loop exhausts its budget and times
out. -/
theorem confirmLoop_timeout (sig : String) (lv : Nat) (responses : Nat → PollResponse) :
    ∀ rem start,
      (∀ j, j < rem → confirmStep lv sig (responses (start + j)) = none) →
      confirmLoop sig lv responses start rem = ConfirmResult.timedOut sig := by
  intro rem
  induction rem with
  | zero => intro start _; rfl
  | succ rem ih =>
    intro start hall
    have h0 : confirmStep lv sig (responses start) = none := by
      have := hall 0 (by omega)
      rwa [Nat.add_zero] at this
    have hrec := ih (start + 1) (fun j hj => by
      have := hall (j + 1) (by omega)
      rwa [show start + (j + 1) = start + 1 + j by omega] at this)
    simp [confirmLoop, h0, hrec]

/-- C9: the poller behaves as the specified state machine.  With attempts
1..maxAttempts and k prior indecisive attempts: a response found with a
non-null error rejects immediately with that error, consuming no further
attempts; a response found without error returns the signature; a not-found
response whose finalized height exceeds the expiry ceiling expires
immediately; a not-found response at or under the ceiling and a transient
query error are indecisive and polling retries; and exhausting all
maxAttempts attempts yields the distinct timeout result carrying the
signature. -/
theorem confirmPolling_state_machine (sig : String) (lv maxAttempts : Nat)
    (responses : Nat → PollResponse) :
    (∀ k e, k < maxAttempts →
      (∀ j, j < k → confirmStep lv sig (responses (1 + j)) = none) →
      responses (1 + k) = PollResponse.found (some e) →
      confirmTransactionWithPolling sig lv responses maxAttempts =
        ConfirmResult.rejected e) ∧
    (∀ k, k < maxAttempts →
      (∀ j, j < k → confirmStep lv sig (responses (1 + j)) = none) →
      responses (1 + k) = PollResponse.found none →
      confirmTransactionWithPolling sig lv responses maxAttempts =
        ConfirmResult.confirmed sig) ∧
    (∀ k h, k < maxAttempts →
      (∀ j, j < k → confirmStep lv sig (responses (1 + j)) = none) →
      responses (1 + k) = PollResponse.notFound h → lv < h →
      confirmTransactionWithPolling sig lv responses maxAttempts =
        ConfirmResult.expired) ∧
    (∀ h, ¬ lv < h → confirmStep lv sig (PollResponse.notFound h) = none) ∧
    (∀ msg, confirmStep lv sig (PollResponse.queryError msg) = none) ∧
    ((∀ j, j < maxAttempts → confirmStep lv sig (responses (1 + j)) = none) →
      confirmTransactionWithPolling sig lv responses maxAttempts =
        ConfirmResult.timedOut sig) := by
  refine ⟨?_, ?_, ?_, ?_, ?_, ?_⟩
  · intro k e hk hprev hresp
    exact confirmLoop_decisive sig lv responses k 1 maxAttempts _ hk hprev
      (by rw [hresp]; rfl)
  · intro k hk hprev hresp
    exact confirmLoop_decisive sig lv responses k 1 maxAttempts _ hk hprev
      (by rw [hresp]; rfl)
  · intro k h hk hprev hresp hgt
    refine confirmLoop_decisive sig lv responses k 1 maxAttempts _ hk hprev ?_
    rw [hresp]
    simp [confirmStep, hgt]
  · intro h hle
    simp [confirmStep, hle]
  · intro msg
    rfl
  · intro hall
    exact confirmLoop_timeout sig lv responses maxAttempts 1 hall

/-- C9 witness: with a ceiling of 100, a first attempt that finds the
transaction rejected fails immediately even with attempts remaining; an
always-pending sequence of three attempts (a low height, then a query error,
then another low height) times out carrying the signature. -/
theorem confirmPolling_state_machine_witness :
    confirmTransactionWithPolling "s1" 100 (fun _ => PollResponse.found (some "err")) 5 =
      ConfirmResult.rejected "err" ∧
    confirmTransactionWithPolling "s1" 100
        (fun i => if i = 2 then PollResponse.queryError "rpc" else PollResponse.notFound 90) 3 =
      ConfirmResult.timedOut "s1" :=
  ⟨(confirmPolling_state_machine "s1" 100 5 (fun _ => PollResponse.found (some "err"))).1
      0 "err" (by omega) (fun j hj => absurd hj (Nat.not_lt_zero j)) rfl,
   (confirmPolling_state_machine "s1" 100 3
      (fun i => if i = 2 then PollResponse.queryError "rpc" else PollResponse.notFound 90)).2.2.2.2.2
      (by intro j hj; interval_cases j <;> rfl)⟩

/-- Result of the loadBonding fetch-and-decode consumed by isAmmCompleted:
either the decoded state or the thrown error's message (account missing,
malformed data, or a query failure). -/
def LoadBondingResult : Type := Except String BondingState

/-- isAmmCompleted (src/index.js lines 215-224): return the completion flag
when the bonding curve loads, and true when loading fails for any reason. -/
def isAmmCompleted (r : LoadBondingResult) : Bool :=
  match r with
  | Except.ok state => state.complete
  | Except.error _ => true

/-- getTradeMode (src/index.js lines 231-234). -/
def getTradeMode (r : LoadBondingResult) : String :=
  if isAmmCompleted r then "amm" else "bonding"

/-- The dispatch of autoBuy and autoSell (src/index.js lines 590-609): the
bonding path exactly when getTradeMode says "bonding", otherwise the AMM
path. -/
def autoTradePath (r : LoadBondingResult) : String :=
  if getTradeMode r = "bonding" then "bonding" else "amm"

/-- C10: whenever loading the bonding curve fails, whatever the error,
isAmmCompleted swallows the failure and returns true, getTradeMode returns
"amm", and the unified auto entry points route the trade to the AMM path. -/
theorem loadFailure_routes_to_amm (msg : String) :
    isAmmCompleted (Except.error msg) = true ∧
    getTradeMode (Except.error msg) = "amm" ∧
    autoTradePath (Except.error msg) = "amm" := by
  refine ⟨rfl, rfl, ?_⟩
  simp [autoTradePath, getTradeMode, isAmmCompleted]
